import Mathlib

/-!
Shallow embedding of the whatsapp-chat-viewer backend (src/main.py, src/db.py).

The MongoDB collection is modelled as a list of documents; a document is a
finite partial map from field names to string values (nested JSON values such
as `text.body` are collapsed to opaque strings).  `collection.update_one`
with a `{"$set": u}` update and `upsert=True` is modelled by `updateOne`;
`collection.insert_one` by `insert_one`.  Python `KeyError`, `ValueError`,
`json.JSONDecodeError` and FastAPI `HTTPException` are modelled by the
`Except String` monad.  The WebSocket `ConnectionManager` is modelled by
`Hub`, with connections named by `Nat` and the outcome of
`await connection.send_text(...)` given by a failure oracle `fails`.
-/

/-- A MongoDB document: a partial map from field names to values. -/
def Doc : Type := String → Option String

/-- The field/value pairs of a Mongo `$set` update (a Python dict;
keys are unique in every document the code builds). -/
abbrev FieldSet := List (String × String)

/-- Mongo `$set` semantics: overwrite exactly the fields present in `u`;
fields absent from `u` keep the stored value. -/
def setFields (d : Doc) (u : FieldSet) : Doc :=
  fun k =>
    match u.lookup k with
    | some v => some v
    | none => d k

/-- The document a Mongo upsert synthesizes from the equality filter
`{"id": i}` before applying the update. -/
def baseDoc (i : String) : Doc :=
  fun k => if k = "id" then some i else none

/-- `collection.update_one({"id": i}, {"$set": u}, upsert=True)`:
merge `u` into the first document whose `id` field equals `i`, or, when no
document matches, append a new document built from the filter and `u`. -/
def updateOne : List Doc → String → FieldSet → List Doc
  | [], i, u => [setFields (baseDoc i) u]
  | d :: ds, i, u =>
    if d "id" = some i then setFields d u :: ds
    else d :: updateOne ds i u

/-- `collection.insert_one(new_msg)`: unconditionally appends the document
(the code creates no unique index on the `id` field). -/
def insert_one (store : List Doc) (d : Doc) : List Doc := store ++ [d]

/-! ### Startup payload ingestion (`process_payloads`) -/

/-- `if "to" not in msg and business_number: msg["to"] = business_number` —
note a Python empty-string `business_number` is falsy and triggers no
backfill. -/
def backfillTo (bn : Option String) (m : FieldSet) : FieldSet :=
  match bn with
  | some b => if b ≠ "" ∧ m.lookup "to" = none then m ++ [("to", b)] else m
  | none => m

/-- Processing of one element of `value["messages"]`: backfill `to`, then
`collection.update_one({"id": msg["id"]}, {"$set": msg}, upsert=True)`;
`msg["id"]` raises `KeyError` if the key is absent. -/
def processMessage (s : List Doc) (bn : Option String) (m : FieldSet) :
    Except String (List Doc) :=
  let m' := backfillTo bn m
  match m'.lookup "id" with
  | some i => .ok (updateOne s i m')
  | none => .error "KeyError: id"

/-- Processing of one element of `value["statuses"]`:
`update_one({"id": status["id"]}, {"$set": {"status": ..., "timestamp": ...}},
upsert=True)`; each of the three key accesses raises `KeyError` if absent. -/
def processStatus (s : List Doc) (st : FieldSet) : Except String (List Doc) :=
  match st.lookup "id", st.lookup "status", st.lookup "timestamp" with
  | some i, some sv, some tv =>
      .ok (updateOne s i [("status", sv), ("timestamp", tv)])
  | _, _, _ => .error "KeyError: status field"

/-- The `for msg in value["messages"]` loop; an uncaught exception aborts
the whole loop. -/
def processMsgs (bn : Option String) : List Doc → List FieldSet →
    Except String (List Doc)
  | s, [] => .ok s
  | s, m :: ms =>
    match processMessage s bn m with
    | .ok s' => processMsgs bn s' ms
    | .error e => .error e

/-- The `for status in value["statuses"]` loop. -/
def processStatuses : List Doc → List FieldSet → Except String (List Doc)
  | s, [] => .ok s
  | s, st :: sts =>
    match processStatus s st with
    | .ok s' => processStatuses s' sts
    | .error e => .error e

/-- One element of `entry_data[0]["changes"]`: the `value` dict, with
`metadata.get("display_phone_number")` and the optional `messages` /
`statuses` keys (`Option` models key presence). -/
structure Change where
  business_number : Option String
  messages : Option (List FieldSet)
  statuses : Option (List FieldSet)

/-- `if "messages" in value: ... elif "statuses" in value: ... ` -/
def processChange (s : List Doc) (c : Change) : Except String (List Doc) :=
  match c.messages with
  | some ms => processMsgs c.business_number s ms
  | none =>
    match c.statuses with
    | some sts => processStatuses s sts
    | none => .ok s

/-- The `for change in entry_data[0].get("changes", [])` loop. -/
def processChanges : List Doc → List Change → Except String (List Doc)
  | s, [] => .ok s
  | s, c :: cs =>
    match processChange s c with
    | .ok s' => processChanges s' cs
    | .error e => .error e

/-- One parsed payload file: `payload["metaData"]["entry"]`, each entry
reduced to its `changes` list (missing keys default to `[]`). -/
structure Payload where
  entry : List (List Change)

/-- `entry_data = payload.get("metaData", {}).get("entry", [])`;
`if not entry_data: continue`; only `entry_data[0]` is inspected. -/
def processPayload (s : List Doc) (p : Payload) : Except String (List Doc) :=
  match p.entry with
  | [] => .ok s
  | changes0 :: _ => processChanges s changes0

/-- Reading one file: `json.load(f)` raises `JSONDecodeError` on a malformed
file (`none`); nothing in `process_payloads` catches it. -/
def processFile (s : List Doc) (f : Option Payload) : Except String (List Doc) :=
  match f with
  | none => .error "JSONDecodeError"
  | some p => processPayload s p

/-- The `for filename in os.listdir(payload_folder)` loop over the parsed
contents of the `.json` files. -/
def processFiles : List Doc → List (Option Payload) → Except String (List Doc)
  | s, [] => .ok s
  | s, f :: fs =>
    match processFile s f with
    | .ok s' => processFiles s' fs
    | .error e => .error e

/-- `process_payloads`: skip everything when the collection is nonempty,
otherwise load every file. -/
def process_payloads (s : List Doc) (files : List (Option Payload)) :
    Except String (List Doc) :=
  if s.length > 0 then .ok s else processFiles s files

/-! ### Query endpoints -/

/-- The filter `{"$or": [{"from": phone}, {"to": phone}]}`. -/
def matchesPhone (phone : String) (d : Doc) : Bool :=
  d "from" == some phone || d "to" == some phone

/-- Python string comparison: lexicographic order on the code points.
(Stated on the underlying character lists; this is provably the same
relation as `String` order, see `pyLe_iff`.) -/
def pyLe (a b : String) : Prop := a.data ≤ b.data

instance : DecidableRel pyLe :=
  fun a b => inferInstanceAs (Decidable (a.data ≤ b.data))

/-- The Python sort key `lambda x: x.get("timestamp", "")`. -/
def tsKey (d : Doc) : String := (d "timestamp").getD ""

/-- Comparison used by the ascending stable sort in `get_conversation`. -/
def tsLe (a b : Doc) : Prop := pyLe (tsKey a) (tsKey b)

instance : DecidableRel tsLe :=
  fun a b => inferInstanceAs (Decidable (pyLe (tsKey a) (tsKey b)))

/-- `GET /conversations/{phone}`: find all documents mentioning `phone`,
404 when there are none, else sort ascending (stably) by the timestamp key. -/
def get_conversation (store : List Doc) (phone : String) :
    Except String (List Doc) :=
  let data := store.filter (matchesPhone phone)
  if data.isEmpty then .error "HTTPException 404: No conversation found"
  else .ok (data.insertionSort tsLe)

/-- `doc.get(k)` contributions of one projected document to the phone set. -/
def optList : Option String → List String
  | some v => [v]
  | none => []

/-- The loop body of `get_phones`: collect `doc["from"]` and `doc["to"]`
whenever the key is present (no filtering on the value). -/
def collectPhones : List Doc → List String
  | [] => []
  | d :: ds => optList (d "from") ++ optList (d "to") ++ collectPhones ds

/-- `GET /phones`: `sorted(list(set(...)))` — the duplicate-free ascending
enumeration of all collected values. -/
def get_phones (store : List Doc) : List String :=
  ((collectPhones store).dedup).insertionSort pyLe

/-! ### Live submission (`POST /send_message`) -/

/-- The `new_msg` dict built by `send_message` (`uuid4` and `utcnow` are
external inputs `newId` and `ts`; `text.body` collapsed to `text`). -/
def newMessageDoc (fromN toN body newId ts : String) : Doc :=
  fun k =>
    if k = "id" then some newId
    else if k = "from" then some fromN
    else if k = "to" then some toN
    else if k = "timestamp" then some ts
    else if k = "text" then some body
    else if k = "status" then some "sent"
    else none

/-- Python `str.strip()`: drop whitespace from both ends. -/
def pyStrip (s : String) : String :=
  ⟨((s.data.dropWhile Char.isWhitespace).reverse.dropWhile Char.isWhitespace).reverse⟩

/-- `POST /send_message`: reject a whitespace-only body with a 400,
otherwise build `new_msg` and `collection.insert_one` it; returns the new
store and the saved message. -/
def send_message (store : List Doc) (fromN toN body newId ts : String) :
    Except String (List Doc × Doc) :=
  if pyStrip body = "" then .error "HTTPException 400: Message cannot be empty"
  else
    let d := newMessageDoc fromN toN body newId ts
    .ok (insert_one store d, d)

/-! ### WebSocket connection manager -/

/-- `ConnectionManager`: the `active_connections` list, connections named
by `Nat`. -/
structure Hub where
  active_connections : List Nat
  deriving DecidableEq

/-- `connect`: accept and append to the active list. -/
def connect (h : Hub) (ws : Nat) : Hub := ⟨h.active_connections ++ [ws]⟩

/-- `disconnect`: Python `list.remove` — removes the first occurrence, and
raises `ValueError` when the element is absent. -/
def disconnect (h : Hub) (ws : Nat) : Except String Hub :=
  if ws ∈ h.active_connections then .ok ⟨h.active_connections.erase ws⟩
  else .error "ValueError: list.remove(x): x not in list"

/-- The broadcast loop body: `try: await connection.send_text(data)
except: pass` — a failing send is skipped, the loop continues.  Returns the
connections that received the message, in order. -/
def sendAll (fails : Nat → Bool) : List Nat → List Nat
  | [] => []
  | c :: cs => if fails c then sendAll fails cs else c :: sendAll fails cs

/-- `broadcast`: serialize once and attempt delivery to every active
connection; `active_connections` is not mutated.  `fails c = true` means
`send_text` raises for connection `c` during this broadcast. -/
def broadcast (h : Hub) (fails : Nat → Bool) : Hub × List Nat :=
  (h, sendAll fails h.active_connections)

/-! ### Concrete documents and payloads used to instantiate the theorems -/

/-- Observation of an ingestion outcome: the `timestamp` fields of the
resulting store, `none` when the run raised. -/
def timestampsOf (e : Except String (List Doc)) : Option (List (Option String)) :=
  (e.map (fun l => l.map (fun d => d "timestamp"))).toOption

/-- The record the message-creation upsert for `m1` stores:
`from=A, to=B, body=X, timestamp=T1`. -/
def storedMsgDoc : Doc :=
  setFields (baseDoc "m1")
    [("id", "m1"), ("from", "A"), ("to", "B"), ("text", "X"), ("timestamp", "T1")]

/-- A well-formed payload file holding one message-creation event. -/
def goodPayload : Payload :=
  ⟨[[⟨some "15550001", some [[("id", "m9"), ("text", "ok")]], none⟩]]⟩

/-- A pre-existing store document with `id = "x"`. -/
def dupDoc : Doc := fun k => if k = "id" then some "x" else none

/-- Conversation-example record for participant `A`, timestamp 2024-01-03. -/
def docA1 : Doc := fun k =>
  if k = "id" then some "a1"
  else if k = "from" then some "A"
  else if k = "timestamp" then some "2024-01-03" else none

/-- Conversation-example record for participant `A`, timestamp 2024-01-01. -/
def docA2 : Doc := fun k =>
  if k = "id" then some "a2"
  else if k = "from" then some "A"
  else if k = "timestamp" then some "2024-01-01" else none

/-- Conversation-example record for participant `A`, timestamp 2024-01-02. -/
def docA3 : Doc := fun k =>
  if k = "id" then some "a3"
  else if k = "to" then some "A"
  else if k = "timestamp" then some "2024-01-02" else none

/-- The conversation-example store, in unsorted arrival order. -/
def storeA : List Doc := [docA1, docA2, docA3]

/-- A record whose `from` field is present but empty. -/
def emptyFromDoc : Doc := fun k =>
  if k = "from" then some "" else if k = "id" then some "e1" else none

/-! ### General lemmas about the embedded operations -/

theorem pyLe_iff (a b : String) : pyLe a b ↔ a ≤ b := by
  rw [String.le_iff_toList_le]; exact Iff.rfl

theorem pyLe_empty (s : String) : pyLe "" s := List.nil_le

theorem setFields_eq_of_lookup {u : FieldSet} {k v : String} (d : Doc)
    (h : u.lookup k = some v) : setFields d u k = some v := by
  simp [setFields, h]

theorem setFields_eq_of_lookup_none {u : FieldSet} {k : String} (d : Doc)
    (h : u.lookup k = none) : setFields d u k = d k := by
  simp [setFields, h]

theorem setFields_idem (d : Doc) (u : FieldSet) :
    setFields (setFields d u) u = setFields d u := by
  funext k
  cases h : u.lookup k with
  | none =>
    rw [setFields_eq_of_lookup_none (setFields d u) h,
      setFields_eq_of_lookup_none d h]
  | some v =>
    rw [setFields_eq_of_lookup (setFields d u) h, setFields_eq_of_lookup d h]

theorem updateOne_nil (i : String) (u : FieldSet) :
    updateOne [] i u = [setFields (baseDoc i) u] := rfl

theorem updateOne_cons_pos {d : Doc} {i : String} (ds : List Doc) (u : FieldSet)
    (h : d "id" = some i) :
    updateOne (d :: ds) i u = setFields d u :: ds := by
  simp only [updateOne]
  rw [if_pos h]

theorem updateOne_cons_neg {d : Doc} {i : String} (ds : List Doc) (u : FieldSet)
    (h : ¬ d "id" = some i) :
    updateOne (d :: ds) i u = d :: updateOne ds i u := by
  simp only [updateOne]
  rw [if_neg h]

theorem updateOne_idem (s : List Doc) (i : String) (u : FieldSet)
    (h : u.lookup "id" = some i) :
    updateOne (updateOne s i u) i u = updateOne s i u := by
  induction s with
  | nil =>
    rw [updateOne_nil, updateOne_cons_pos [] u (setFields_eq_of_lookup _ h),
      setFields_idem]
  | cons d ds ih =>
    by_cases hd : d "id" = some i
    · rw [updateOne_cons_pos ds u hd,
        updateOne_cons_pos ds u (setFields_eq_of_lookup _ h), setFields_idem]
    · rw [updateOne_cons_neg ds u hd, updateOne_cons_neg (updateOne ds i u) u hd,
        ih]

/-- C3: for every store state and message upsert intent, applying the same
intent twice in succession yields the same store as applying it once. -/
theorem message_upsert_idempotent (s : List Doc) (bn : Option String)
    (m : FieldSet) :
    (processMessage s bn m >>= fun s' => processMessage s' bn m)
      = processMessage s bn m := by
  unfold processMessage
  cases h : (backfillTo bn m).lookup "id" with
  | none => simp only [h]; rfl
  | some i =>
    simp only [h]
    exact congrArg Except.ok (updateOne_idem s i _ h)

theorem setFields_status_comm (d : Doc) (m : FieldSet) (sv tv : String)
    (hst : m.lookup "status" = none) (hts : m.lookup "timestamp" = none) :
    setFields (setFields d m) [("status", sv), ("timestamp", tv)]
      = setFields (setFields d [("status", sv), ("timestamp", tv)]) m := by
  funext k
  by_cases h1 : k = "status"
  · subst h1
    rw [setFields_eq_of_lookup (setFields d m)
        (show List.lookup "status" [("status", sv), ("timestamp", tv)] = some sv from rfl),
      setFields_eq_of_lookup_none _ hst,
      setFields_eq_of_lookup d
        (show List.lookup "status" [("status", sv), ("timestamp", tv)] = some sv from rfl)]
  · by_cases h2 : k = "timestamp"
    · subst h2
      rw [setFields_eq_of_lookup (setFields d m)
          (show List.lookup "timestamp" [("status", sv), ("timestamp", tv)] = some tv from rfl),
        setFields_eq_of_lookup_none _ hts,
        setFields_eq_of_lookup d
          (show List.lookup "timestamp" [("status", sv), ("timestamp", tv)] = some tv from rfl)]
    · have e1 : (k == "status") = false := beq_eq_false_iff_ne.mpr h1
      have e2 : (k == "timestamp") = false := beq_eq_false_iff_ne.mpr h2
      have hl : List.lookup k [("status", sv), ("timestamp", tv)] = none := by
        simp [List.lookup, e1, e2]
      cases hm : m.lookup k with
      | some v =>
        rw [setFields_eq_of_lookup_none _ hl, setFields_eq_of_lookup _ hm,
          setFields_eq_of_lookup _ hm]
      | none =>
        rw [setFields_eq_of_lookup_none _ hl, setFields_eq_of_lookup_none _ hm,
          setFields_eq_of_lookup_none _ hm, setFields_eq_of_lookup_none _ hl]

/-- C1 (amended): a message upsert and a status upsert for the same `id`
commute when their field sets are disjoint, i.e. when the message event
carries no `status` and no `timestamp` field of its own. -/
theorem upsert_commute_on_disjoint_fields (s : List Doc) (i sv tv : String)
    (m : FieldSet)
    (hid : m.lookup "id" = some i)
    (hst : m.lookup "status" = none)
    (hts : m.lookup "timestamp" = none) :
    updateOne (updateOne s i m) i [("status", sv), ("timestamp", tv)]
      = updateOne (updateOne s i [("status", sv), ("timestamp", tv)]) i m := by
  have hstl : List.lookup "id" [("status", sv), ("timestamp", tv)] = none := rfl
  induction s with
  | nil =>
    have h2 : setFields (baseDoc i) [("status", sv), ("timestamp", tv)] "id" = some i := by
      rw [setFields_eq_of_lookup_none _ hstl]; rfl
    rw [updateOne_nil i m, updateOne_nil i [("status", sv), ("timestamp", tv)],
      updateOne_cons_pos [] [("status", sv), ("timestamp", tv)]
        (setFields_eq_of_lookup (baseDoc i) hid),
      updateOne_cons_pos [] m h2,
      setFields_status_comm (baseDoc i) m sv tv hst hts]
  | cons d ds ih =>
    by_cases hd : d "id" = some i
    · have h2 : setFields d [("status", sv), ("timestamp", tv)] "id" = some i := by
        rw [setFields_eq_of_lookup_none _ hstl]; exact hd
      rw [updateOne_cons_pos ds m hd,
        updateOne_cons_pos ds [("status", sv), ("timestamp", tv)] hd,
        updateOne_cons_pos ds [("status", sv), ("timestamp", tv)]
          (setFields_eq_of_lookup d hid),
        updateOne_cons_pos ds m h2,
        setFields_status_comm d m sv tv hst hts]
    · rw [updateOne_cons_neg ds m hd,
        updateOne_cons_neg ds [("status", sv), ("timestamp", tv)] hd,
        updateOne_cons_neg (updateOne ds i m) [("status", sv), ("timestamp", tv)] hd,
        updateOne_cons_neg (updateOne ds i [("status", sv), ("timestamp", tv)]) m hd,
        ih]

/-- C1 witness: the disjoint-field commutation at a concrete message
`{id, text}` and status `{id, status, timestamp}` pair. -/
theorem upsert_commute_on_disjoint_fields_witness :
    (List.lookup "id" ([("id", "m1"), ("text", "hi")] : FieldSet) = some "m1"
      ∧ List.lookup "status" ([("id", "m1"), ("text", "hi")] : FieldSet) = none
      ∧ List.lookup "timestamp" ([("id", "m1"), ("text", "hi")] : FieldSet) = none)
    ∧ updateOne (updateOne [] "m1" [("id", "m1"), ("text", "hi")]) "m1"
        [("status", "read"), ("timestamp", "T2")]
      = updateOne (updateOne [] "m1" [("status", "read"), ("timestamp", "T2")]) "m1"
        [("id", "m1"), ("text", "hi")] :=
  ⟨⟨by decide, by decide, by decide⟩,
    upsert_commute_on_disjoint_fields [] "m1" "read" "T2"
      [("id", "m1"), ("text", "hi")] (by decide) (by decide) (by decide)⟩

/-- C1 counterexample: when the message event itself carries a `timestamp`,
the two delivery orders give different final records — message-then-status
ends with the status event's `T2`, status-then-message ends with the
message event's `T1`. -/
theorem upsert_order_dependent_on_overlap :
    timestampsOf (processMessage [] none [("id", "m1"), ("timestamp", "T1")] >>= fun s =>
        processStatus s [("id", "m1"), ("status", "read"), ("timestamp", "T2")])
      ≠ timestampsOf (processStatus [] [("id", "m1"), ("status", "read"), ("timestamp", "T2")] >>= fun s =>
        processMessage s none [("id", "m1"), ("timestamp", "T1")]) := by
  decide

theorem updateOne_append (post : List Doc) (d : Doc) (i : String) (u : FieldSet)
    (hd : d "id" = some i) :
    ∀ pre : List Doc, (∀ d' ∈ pre, ¬ d' "id" = some i) →
      updateOne (pre ++ d :: post) i u = pre ++ setFields d u :: post
  | [], _ => by
    rw [List.nil_append, List.nil_append, updateOne_cons_pos post u hd]
  | p :: pre', hpre => by
    rw [List.cons_append, List.cons_append,
      updateOne_cons_neg (pre' ++ d :: post) u (hpre p (List.mem_cons_self p pre')),
      updateOne_append post d i u hd pre'
        (fun d' hm => hpre d' (List.mem_cons_of_mem p hm))]

/-- C2: an upsert into a store holding a record with the same `id` merges
into (exactly) that record, overwriting only the fields present in the
incoming event; absent fields keep their stored values. -/
theorem merge_overwrites_only_present_fields (pre post : List Doc) (d : Doc)
    (i : String) (u : FieldSet)
    (hpre : ∀ d' ∈ pre, ¬ d' "id" = some i)
    (hd : d "id" = some i) :
    updateOne (pre ++ d :: post) i u = pre ++ setFields d u :: post
    ∧ (∀ k, u.lookup k = none → setFields d u k = d k)
    ∧ (∀ k v, u.lookup k = some v → setFields d u k = some v) :=
  ⟨updateOne_append post d i u hd pre hpre,
    fun _ hk => setFields_eq_of_lookup_none d hk,
    fun _ _ hk => setFields_eq_of_lookup d hk⟩

/-- C2 witness: `StatusUpsert{id, status:delivered, timestamp:T2}` applied
after `MessageUpsert{id, from:A, to:B, body:X, timestamp:T1}` keeps
`from/to/body` and updates `status`/`timestamp`. -/
theorem merge_overwrites_only_present_fields_witness :
    ((∀ d' ∈ ([] : List Doc), ¬ d' "id" = some "m1")
      ∧ storedMsgDoc "id" = some "m1")
    ∧ (updateOne ([] ++ storedMsgDoc :: []) "m1" [("status", "delivered"), ("timestamp", "T2")]
        = [] ++ setFields storedMsgDoc [("status", "delivered"), ("timestamp", "T2")] :: []
      ∧ (∀ k, List.lookup k ([("status", "delivered"), ("timestamp", "T2")] : FieldSet) = none →
          setFields storedMsgDoc [("status", "delivered"), ("timestamp", "T2")] k = storedMsgDoc k)
      ∧ (∀ k v, List.lookup k ([("status", "delivered"), ("timestamp", "T2")] : FieldSet) = some v →
          setFields storedMsgDoc [("status", "delivered"), ("timestamp", "T2")] k = some v))
    ∧ (setFields storedMsgDoc [("status", "delivered"), ("timestamp", "T2")] "from" = some "A"
      ∧ setFields storedMsgDoc [("status", "delivered"), ("timestamp", "T2")] "to" = some "B"
      ∧ setFields storedMsgDoc [("status", "delivered"), ("timestamp", "T2")] "text" = some "X"
      ∧ setFields storedMsgDoc [("status", "delivered"), ("timestamp", "T2")] "status" = some "delivered"
      ∧ setFields storedMsgDoc [("status", "delivered"), ("timestamp", "T2")] "timestamp" = some "T2") :=
  ⟨⟨fun d' hm => absurd hm (List.not_mem_nil d'), by decide⟩,
    merge_overwrites_only_present_fields [] [] storedMsgDoc "m1"
      [("status", "delivered"), ("timestamp", "T2")]
      (fun d' hm => absurd hm (List.not_mem_nil d')) (by decide),
    by decide, by decide, by decide, by decide, by decide⟩

theorem mem_sendAll (fails : Nat → Bool) (l : List Nat) (c : Nat)
    (hc : c ∈ l) (hok : fails c = false) : c ∈ sendAll fails l := by
  induction l with
  | nil => cases hc
  | cons a as ih =>
    rcases List.mem_cons.mp hc with h | h
    · subst h
      simp [sendAll, hok]
    · by_cases hf : fails a
      · simpa [sendAll, hf] using ih h
      · simp [sendAll, hf, ih h]

/-- C4 (amended): a send failure on one connection does not prevent delivery
to any other active connection and raises no error out of `broadcast`; but
the failing connection is not removed — the active set is left unchanged. -/
theorem broadcast_failure_isolated_not_removed (h : Hub) (fails : Nat → Bool)
    (c : Nat) (hc : c ∈ h.active_connections) (hok : fails c = false) :
    c ∈ (broadcast h fails).2 ∧ (broadcast h fails).1 = h :=
  ⟨mem_sendAll fails h.active_connections c hc hok, rfl⟩

/-- C4 witness: with observers 1 and 2 and a failing send to 1, observer 2
still receives the event and the hub state survives unchanged. -/
theorem broadcast_failure_isolated_witness :
    (2 ∈ (Hub.mk [1, 2]).active_connections ∧ (fun c => c == 1) 2 = false)
    ∧ (2 ∈ (broadcast (Hub.mk [1, 2]) (fun c => c == 1)).2
      ∧ (broadcast (Hub.mk [1, 2]) (fun c => c == 1)).1 = Hub.mk [1, 2]) :=
  ⟨⟨by decide, by decide⟩,
    broadcast_failure_isolated_not_removed (Hub.mk [1, 2]) (fun c => c == 1) 2
      (by decide) (by decide)⟩

/-- C4 counterexample: after a broadcast in which connection 1 fails,
connection 1 is still in the active set and receives the next broadcast —
it is not auto-unregistered as the claim states. -/
theorem broadcast_failure_not_unregistered :
    (broadcast (Hub.mk [1, 2]) (fun c => c == 1)).1.active_connections = [1, 2]
    ∧ 1 ∈ (broadcast (broadcast (Hub.mk [1, 2]) (fun c => c == 1)).1
        (fun _ => false)).2 := by
  decide

theorem count_erase_self_nat (l : List Nat) (a : Nat) (ha : a ∈ l) :
    (l.erase a).count a + 1 = l.count a := by
  have hpos : 0 < l.count a := List.count_pos_iff.mpr ha
  simp only [List.count_erase_self]
  omega

theorem count_erase_other_nat (l : List Nat) (a c : Nat) (hca : ¬ c = a) :
    (l.erase a).count c = l.count c :=
  List.count_erase_of_ne hca l

/-- C5 (amended): `disconnect` of a present connection removes (the first
occurrence of) it and leaves every other connection's multiplicity alone;
`disconnect` of an absent connection raises `ValueError` — it is not an
idempotent no-op. -/
theorem disconnect_removes_or_raises (h : Hub) (ws : Nat) :
    (ws ∉ h.active_connections →
      disconnect h ws = .error "ValueError: list.remove(x): x not in list")
    ∧ (ws ∈ h.active_connections →
      ∃ h', disconnect h ws = .ok h'
        ∧ h'.active_connections.count ws + 1 = h.active_connections.count ws
        ∧ ∀ c, ¬ c = ws →
            h'.active_connections.count c = h.active_connections.count c) := by
  constructor
  · intro hn
    unfold disconnect
    rw [if_neg hn]
  · intro hm
    refine ⟨⟨h.active_connections.erase ws⟩, ?_, ?_, ?_⟩
    · unfold disconnect
      rw [if_pos hm]
    · exact count_erase_self_nat _ ws hm
    · exact fun c hc => count_erase_other_nat _ ws c hc

/-- C5 witness: removing connection 7 from the hub `[7, 9]`. -/
theorem disconnect_removes_witness :
    7 ∈ (Hub.mk [7, 9]).active_connections
    ∧ ∃ h', disconnect (Hub.mk [7, 9]) 7 = .ok h'
        ∧ h'.active_connections.count 7 + 1
            = (Hub.mk [7, 9]).active_connections.count 7
        ∧ ∀ c, ¬ c = 7 → h'.active_connections.count c
            = (Hub.mk [7, 9]).active_connections.count c :=
  ⟨by decide, (disconnect_removes_or_raises (Hub.mk [7, 9]) 7).2 (by decide)⟩

/-- C5 counterexample: unregistering a connection that is not in the active
set raises `ValueError` — it is not a silent no-op. -/
theorem disconnect_absent_raises :
    disconnect (Hub.mk []) 1 = .error "ValueError: list.remove(x): x not in list"
    ∧ (disconnect (Hub.mk []) 1).isOk = false :=
  ⟨rfl, rfl⟩

theorem lookup_id_backfillTo (bn : Option String) (m : FieldSet)
    (h : m.lookup "id" = none) : (backfillTo bn m).lookup "id" = none := by
  cases bn with
  | none => exact h
  | some b =>
    by_cases hc : b ≠ "" ∧ m.lookup "to" = none
    · have e : backfillTo (some b) m = m ++ [("to", b)] := by
        simp only [backfillTo]
        rw [if_pos hc]
      rw [e, List.lookup_append, h]
      rfl
    · have e : backfillTo (some b) m = m := by
        simp only [backfillTo]
        rw [if_neg hc]
      rw [e]
      exact h

/-- C6 (amended): a message-creation event lacking `id` raises `KeyError`,
which aborts the whole messages loop — later events in the batch are not
applied. -/
theorem missing_id_aborts_batch (bn : Option String) (s : List Doc)
    (m : FieldSet) (ms : List FieldSet) (h : m.lookup "id" = none) :
    processMsgs bn s (m :: ms) = .error "KeyError: id" := by
  have h' := lookup_id_backfillTo bn m h
  unfold processMsgs processMessage
  simp only [h']

/-- C6 witness: a batch whose first event has no `id` aborts with KeyError
even though a well-formed event follows it. -/
theorem missing_id_aborts_batch_witness :
    List.lookup "id" ([("text", "hi")] : FieldSet) = none
    ∧ processMsgs none [] [[("text", "hi")], [("id", "m2"), ("text", "yo")]]
        = .error "KeyError: id" :=
  ⟨by decide,
    missing_id_aborts_batch none [] [("text", "hi")]
      [[("id", "m2"), ("text", "yo")]] (by decide)⟩

/-- C6 counterexample: with a missing-`id` event followed by a valid event,
the run errors out — the remaining event in the batch is NOT applied, so the
claimed skip-and-continue behaviour fails. -/
theorem missing_id_not_skipped :
    (processMsgs none [] [[("body", "hello")], [("id", "m7"), ("body", "later")]]).isOk
      = false := rfl

/-- C7 (amended): when reading or processing one payload file raises, the
startup load aborts with that error; the remaining files are not
processed. -/
theorem file_failure_aborts_remaining (s : List Doc) (f : Option Payload)
    (fs : List (Option Payload)) (e : String)
    (h : processFile s f = .error e) :
    processFiles s (f :: fs) = .error e := by
  unfold processFiles
  simp only [h]

/-- C7 witness: a malformed first file aborts the load although a valid file
follows. -/
theorem file_failure_aborts_remaining_witness :
    processFile [] none = .error "JSONDecodeError"
    ∧ processFiles [] [none, some goodPayload] = .error "JSONDecodeError" :=
  ⟨rfl, file_failure_aborts_remaining [] none [some goodPayload]
    "JSONDecodeError" rfl⟩

/-- C7 counterexample: the startup bulk load over [malformed file, valid
file] fails outright — the valid file's intents are never applied,
contradicting the claimed continue-on-failure behaviour. -/
theorem malformed_file_aborts_startup_load :
    (process_payloads [] [none, some goodPayload]).isOk = false := rfl

/-- C8 (amended): `send_message` performs an unconditional insert — the new
document is appended and the number of stored records carrying the inserted
`id` grows by one, even if that `id` already exists (no merge on
collision). -/
theorem send_message_appends_unconditionally (s : List Doc)
    (fromN toN body newId ts : String) (hbody : ¬ pyStrip body = "") :
    ∃ r, send_message s fromN toN body newId ts = .ok r
      ∧ r.1 = s ++ [newMessageDoc fromN toN body newId ts]
      ∧ r.1.countP (fun d => d "id" == some newId)
          = s.countP (fun d => d "id" == some newId) + 1 := by
  refine ⟨(s ++ [newMessageDoc fromN toN body newId ts],
      newMessageDoc fromN toN body newId ts), ?_, rfl, ?_⟩
  · unfold send_message
    rw [if_neg hbody]
    rfl
  · rw [List.countP_append]
    have hp : (fun d => d "id" == some newId) (newMessageDoc fromN toN body newId ts)
        = true := by
      simp [newMessageDoc]
    simp [List.countP_cons, hp]

/-- C8 witness: inserting a fresh message whose external id `x` collides
with an existing record leaves two records with id `x`. -/
theorem send_message_appends_witness :
    ¬ pyStrip "hello" = ""
    ∧ ∃ r, send_message [dupDoc] "A" "B" "hello" "x" "T1" = .ok r
        ∧ r.1 = [dupDoc] ++ [newMessageDoc "A" "B" "hello" "x" "T1"]
        ∧ r.1.countP (fun d => d "id" == some "x")
            = ([dupDoc] : List Doc).countP (fun d => d "id" == some "x") + 1 :=
  ⟨by decide,
    send_message_appends_unconditionally [dupDoc] "A" "B" "hello" "x" "T1"
      (by decide)⟩

/-- C8 counterexample: with a record of id `x` already stored, submitting a
message that gets id `x` yields a store holding two records with id `x` —
Insert does not behave as Upsert on collision. -/
theorem insert_duplicates_existing_id :
    (send_message [dupDoc] "A" "B" "hello" "x" "T1").map
        (fun r => r.1.countP (fun d => d "id" == some "x"))
      = .ok 2 := rfl

/-- C3 witness: the double application at a concrete store and intent. -/
theorem message_upsert_idempotent_witness :
    (processMessage [] none [("id", "w3"), ("text", "t")] >>= fun s' =>
        processMessage s' none [("id", "w3"), ("text", "t")])
      = processMessage [] none [("id", "w3"), ("text", "t")] :=
  message_upsert_idempotent [] none [("id", "w3"), ("text", "t")]

/-- C9: for a participant with at least one associated record,
`get_conversation` returns exactly the records whose `from` or `to` equals
the participant, sorted ascending by the timestamp key, where a missing
timestamp sorts as the minimal (empty) value. -/
theorem get_conversation_sorted_by_timestamp (store : List Doc) (phone : String)
    (h : (store.filter (matchesPhone phone)).isEmpty = false) :
    ∃ l, get_conversation store phone = .ok l
      ∧ l.Perm (store.filter (matchesPhone phone))
      ∧ l.Sorted (fun a b => tsKey a ≤ tsKey b)
      ∧ ∀ d ∈ l, d "timestamp" = none → ∀ d', tsKey d ≤ tsKey d' := by
  haveI : IsTotal Doc tsLe := ⟨fun a b => by
    unfold tsLe
    rw [pyLe_iff, pyLe_iff]
    exact le_total _ _⟩
  haveI : IsTrans Doc tsLe := ⟨fun a b c h1 h2 => by
    unfold tsLe at h1 h2 ⊢
    rw [pyLe_iff] at h1 h2 ⊢
    exact le_trans h1 h2⟩
  refine ⟨(store.filter (matchesPhone phone)).insertionSort tsLe, ?_, ?_, ?_, ?_⟩
  · simp [get_conversation, h]
  · exact List.perm_insertionSort tsLe _
  · exact List.Pairwise.imp (fun hab => (pyLe_iff _ _).mp hab)
      (List.sorted_insertionSort tsLe _)
  · intro d _ hnone d'
    have hk : tsKey d = "" := by simp [tsKey, hnone]
    rw [hk]
    exact (pyLe_iff _ _).mp (pyLe_empty _)

/-- C9 witness: three records for participant `A` timestamped 2024-01-03,
2024-01-01, 2024-01-02 come back in the order 01, 02, 03. -/
theorem get_conversation_sorted_witness :
    ((storeA.filter (matchesPhone "A")).isEmpty = false)
    ∧ (∃ l, get_conversation storeA "A" = .ok l
        ∧ l.Perm (storeA.filter (matchesPhone "A"))
        ∧ l.Sorted (fun a b => tsKey a ≤ tsKey b)
        ∧ ∀ d ∈ l, d "timestamp" = none → ∀ d', tsKey d ≤ tsKey d')
    ∧ (get_conversation storeA "A").map (fun l => l.map tsKey)
        = .ok ["2024-01-01", "2024-01-02", "2024-01-03"] :=
  ⟨rfl, get_conversation_sorted_by_timestamp storeA "A" rfl, rfl⟩

theorem mem_optList (o : Option String) (x : String) :
    x ∈ optList o ↔ o = some x := by
  cases o <;> simp [optList, eq_comm]

theorem mem_collectPhones (store : List Doc) (x : String) :
    x ∈ collectPhones store
      ↔ ∃ d ∈ store, d "from" = some x ∨ d "to" = some x := by
  induction store with
  | nil => simp [collectPhones]
  | cons d ds ih =>
    simp only [collectPhones, List.mem_append, mem_optList, ih,
      List.mem_cons]
    constructor
    · rintro ((h | h) | ⟨d', hd', h⟩)
      · exact ⟨d, Or.inl rfl, Or.inl h⟩
      · exact ⟨d, Or.inl rfl, Or.inr h⟩
      · exact ⟨d', Or.inr hd', h⟩
    · rintro ⟨d', hd' | hd', h⟩
      · subst hd'
        exact Or.inl h
      · exact Or.inr ⟨d', hd', h⟩

/-- C10: `get_phones` returns a duplicate-free ascending list holding
exactly the `from`/`to` values present in stored records — any present
value, the empty string included, is listed. -/
theorem get_phones_sorted_nodup_complete (store : List Doc) :
    (∀ x, x ∈ get_phones store
        ↔ ∃ d ∈ store, d "from" = some x ∨ d "to" = some x)
    ∧ (get_phones store).Nodup
    ∧ (get_phones store).Sorted (fun a b => a ≤ b) := by
  haveI : IsTotal String pyLe := ⟨fun a b => by
    rw [pyLe_iff, pyLe_iff]
    exact le_total a b⟩
  haveI : IsTrans String pyLe := ⟨fun a b c h1 h2 => by
    rw [pyLe_iff] at h1 h2 ⊢
    exact le_trans h1 h2⟩
  refine ⟨?_, ?_, ?_⟩
  · intro x
    unfold get_phones
    rw [(List.perm_insertionSort pyLe _).mem_iff, List.mem_dedup,
      mem_collectPhones]
  · unfold get_phones
    exact (List.perm_insertionSort pyLe _).nodup_iff.mpr (List.nodup_dedup _)
  · unfold get_phones
    exact List.Pairwise.imp (fun hab => (pyLe_iff _ _).mp hab)
      (List.sorted_insertionSort pyLe _)

/-- C10 witness: a record carrying an empty-string `from` contributes `""`
to the participant list — present values are not filtered by content. -/
theorem get_phones_complete_witness :
    ("" ∈ get_phones [emptyFromDoc]
      ↔ ∃ d ∈ [emptyFromDoc], d "from" = some "" ∨ d "to" = some "")
    ∧ get_phones [emptyFromDoc] = [""] :=
  ⟨(get_phones_sorted_nodup_complete [emptyFromDoc]).1 "", rfl⟩
